import Mathlib

/-
Shallow embedding of the subscription CRUD service
(repository: untibullet/subscription-service-em).

Embedded components:
- data model (internal/models/subscription.go, migration schema),
- Postgres repository semantics (repository layer: Create, GetByID, Update,
  Delete, List, CalculateCost) including the CHECK constraints of the
  subscriptions table (price > 0, end_date IS NULL OR end_date >= start_date,
  VARCHAR(255), primary-key uniqueness),
- HTTP handler logic (internal/service/http.go): parseMonth, Create, GetByID,
  Update, Delete, List, CalculateCost, with the pagination-parameter parsing
  modelled after Go strconv.Atoi and the month parsing after
  time.Parse with layout "01-2006".

UUIDs are abstracted as Nat; timestamp instants (created_at / updated_at)
as Nat; DATE values as a calendar-date record compared lexicographically,
mirroring UTC time.Time comparison at the granularity the service uses.
-/

namespace SubSvc

/-- Abstract UUID values (uuid.UUID in the source). -/
abbrev UUID := Nat

/-- A UTC time value at the granularity the service manipulates: Go
time.Date(year, month, day, hour, min, sec, 0, time.UTC). -/
structure GoDate where
  year : Nat
  month : Nat
  day : Nat
  hour : Nat
  minute : Nat
  second : Nat
deriving DecidableEq, Repr

/-- Chronological comparison of two UTC time values (lexicographic on the
calendar components), mirroring SQL DATE comparison and time.Time.Before/After
for zero-nanosecond UTC values. -/
def GoDate.le (a b : GoDate) : Bool :=
  if a.year ≠ b.year then a.year < b.year
  else if a.month ≠ b.month then a.month < b.month
  else if a.day ≠ b.day then a.day < b.day
  else if a.hour ≠ b.hour then a.hour < b.hour
  else if a.minute ≠ b.minute then a.minute < b.minute
  else a.second ≤ b.second

/-- The Subscription entity (models.Subscription): id, service_name, price,
user_id, start_date, optional end_date, created_at, updated_at. -/
structure Subscription where
  id : UUID
  serviceName : String
  price : Int
  userId : UUID
  startDate : GoDate
  endDate : Option GoDate
  createdAt : Nat
  updatedAt : Nat
deriving DecidableEq, Repr

/-- SubscriptionFilter (models.SubscriptionFilter): optional user_id and
service_name equality filters plus limit/offset (Go int). -/
structure SubscriptionFilter where
  userId : Option UUID
  serviceName : Option String
  limit : Int
  offset : Int
deriving DecidableEq, Repr

/-- CostFilter (models.CostFilter): optional user_id/service_name, required
start_period/end_period. -/
structure CostFilter where
  userId : Option UUID
  serviceName : Option String
  startPeriod : GoDate
  endPeriod : GoDate
deriving DecidableEq, Repr

/-- Repository errors: ErrNotFound, plus the generic wrapped store error the
repository returns for any other database failure (constraint violations,
duplicate keys, I/O). -/
inductive RepoError where
  | notFound
  | storeFailure
deriving DecidableEq, Repr

/-- The database table state: the rows of the subscriptions table. -/
abbrev Store := List Subscription

/-- The row-level CHECK constraints and column constraints of the
subscriptions table from the migration: price > 0 (CHECK), service_name
VARCHAR(255), valid_date_range CHECK (end_date IS NULL OR end_date >=
start_date). -/
def fieldsOk (name : String) (price : Int) (sd : GoDate) (ed : Option GoDate) : Bool :=
  (0 < price) && (name.length ≤ 255) &&
    (match ed with
     | none => true
     | some e => GoDate.le sd e)

/-- Constraint check for a whole row. -/
def rowOk (s : Subscription) : Bool :=
  fieldsOk s.serviceName s.price s.startDate s.endDate

namespace Repo

/-- PostgresSubscriptionRepo.Create: INSERT of the fully-populated entity.
The database rejects a primary-key collision or any CHECK/column-constraint
violation; the repository wraps every such error (no special case), which we
model as storeFailure. On success the row is appended to the table. -/
def create (store : Store) (sub : Subscription) : Except RepoError Store :=
  if store.any (fun r => r.id == sub.id) then
    Except.error RepoError.storeFailure
  else if !rowOk sub then
    Except.error RepoError.storeFailure
  else
    Except.ok (store ++ [sub])

/-- PostgresSubscriptionRepo.GetByID: SELECT ... WHERE id = $1; pgx.ErrNoRows
is mapped to ErrNotFound. -/
def getByID (store : Store) (id : UUID) : Except RepoError Subscription :=
  match store.find? (fun r => r.id == id) with
  | some s => Except.ok s
  | none => Except.error RepoError.notFound

/-- The SET list of the UPDATE statement: service_name, price, start_date,
end_date, updated_at are overwritten from the argument entity; id, user_id
and created_at of the row are untouched. -/
def applyUpdateRow (sub row : Subscription) : Subscription :=
  { row with
      serviceName := sub.serviceName
      price := sub.price
      startDate := sub.startDate
      endDate := sub.endDate
      updatedAt := sub.updatedAt }

/-- PostgresSubscriptionRepo.Update: UPDATE ... WHERE id = $1. If no row
matches, RowsAffected() = 0 and the repository returns ErrNotFound (the
row-level CHECK constraints are never evaluated in that case). If a row
matches but the new values violate a constraint, the database errors and
the repository wraps it. Otherwise the matching rows are rewritten. -/
def update (store : Store) (sub : Subscription) : Except RepoError Store :=
  if store.all (fun r => r.id != sub.id) then
    Except.error RepoError.notFound
  else if !fieldsOk sub.serviceName sub.price sub.startDate sub.endDate then
    Except.error RepoError.storeFailure
  else
    Except.ok (store.map (fun r => if r.id == sub.id then applyUpdateRow sub r else r))

/-- PostgresSubscriptionRepo.Delete: DELETE ... WHERE id = $1; RowsAffected() = 0
yields ErrNotFound. -/
def delete (store : Store) (id : UUID) : Except RepoError Store :=
  if store.all (fun r => r.id != id) then
    Except.error RepoError.notFound
  else
    Except.ok (store.filter (fun r => r.id != id))

/-- The WHERE predicate of the list query: conjunctive equality filters on
user_id and service_name when present. -/
def listWhere (f : SubscriptionFilter) (s : Subscription) : Bool :=
  (match f.userId with
   | some u => s.userId == u
   | none => true) &&
  (match f.serviceName with
   | some n => s.serviceName == n
   | none => true)

/-- PostgresSubscriptionRepo.List, result semantics: filter, ORDER BY
created_at DESC, then OFFSET (clause emitted only when filter.Offset > 0)
and LIMIT (clause emitted only when filter.Limit > 0). -/
def list (store : Store) (f : SubscriptionFilter) : List Subscription :=
  let rows := (store.filter (listWhere f)).mergeSort
    (fun a b => Nat.ble b.createdAt a.createdAt)
  let rows := if f.offset > 0 then rows.drop f.offset.toNat else rows
  if f.limit > 0 then rows.take f.limit.toNat else rows

/-- One emitted fragment of the dynamically built list query, in source
order, carrying the positional-argument index used in the fragment. -/
inductive Clause where
  | userIdEq (argPos : Nat)
  | serviceNameEq (argPos : Nat)
  | orderByCreatedAtDesc
  | limitClause (argPos : Nat)
  | offsetClause (argPos : Nat)
deriving DecidableEq, Repr

/-- The query-building loop of PostgresSubscriptionRepo.List, translated
statement by statement: argPos starts at 1; a user_id equality fragment is
appended when filter.UserID != nil, then a service_name fragment when
filter.ServiceName != nil, then ORDER BY created_at DESC, then LIMIT when
filter.Limit > 0, then OFFSET when filter.Offset > 0. -/
def listClauses (f : SubscriptionFilter) : List Clause :=
  let cs0 : List Clause := []
  let p0 : Nat := 1
  let step1 := match f.userId with
    | some _ => (cs0 ++ [Clause.userIdEq p0], p0 + 1)
    | none => (cs0, p0)
  let step2 := match f.serviceName with
    | some _ => (step1.1 ++ [Clause.serviceNameEq step1.2], step1.2 + 1)
    | none => step1
  let cs3 := step2.1 ++ [Clause.orderByCreatedAtDesc]
  let step4 := if f.limit > 0 then (cs3 ++ [Clause.limitClause step2.2], step2.2 + 1) else (cs3, step2.2)
  if f.offset > 0 then step4.1 ++ [Clause.offsetClause step4.2] else step4.1

/-- The WHERE predicate of CalculateCost, with the positional arguments in
query order: a1 is $1 (bound to filter.EndPeriod) and a2 is $2 (bound to
filter.StartPeriod): start_date <= $1 AND (end_date IS NULL OR end_date >= $2),
then optional equality fragments on user_id and service_name. -/
def costWhere (a1 a2 : GoDate) (uid : Option UUID) (sname : Option String)
    (s : Subscription) : Bool :=
  GoDate.le s.startDate a1 &&
  (match s.endDate with
   | none => true
   | some e => GoDate.le a2 e) &&
  (match uid with
   | some u => s.userId == u
   | none => true) &&
  (match sname with
   | some n => s.serviceName == n
   | none => true)

/-- PostgresSubscriptionRepo.CalculateCost: SELECT COALESCE(SUM(price), 0)
over the rows selected by costWhere, with args = [filter.EndPeriod,
filter.StartPeriod] bound to $1, $2 in that order. -/
def calculateCost (store : Store) (f : CostFilter) : Int :=
  ((store.filter (costWhere f.endPeriod f.startPeriod f.userId f.serviceName)).map
    (fun s => s.price)).foldl (· + ·) 0

end Repo

/-- Decimal value of a digit character, none for a non-digit; mirrors the
digit handling of Go number parsing. -/
def digitVal (c : Char) : Option Nat :=
  if c.isDigit then some (c.toNat - 48) else none

/-- Consume exactly two digit characters (Go time.Parse fixed-width numeric
field for the "01" month verb). -/
def getnum2 (cs : List Char) : Option (Nat × List Char) :=
  match cs with
  | c1 :: c2 :: rest =>
    match digitVal c1, digitVal c2 with
    | some a, some b => some (a * 10 + b, rest)
    | _, _ => none
  | _ => none

/-- Consume exactly four digit characters (Go time.Parse "2006" year verb). -/
def getnum4 (cs : List Char) : Option (Nat × List Char) :=
  match cs with
  | c1 :: c2 :: c3 :: c4 :: rest =>
    match digitVal c1, digitVal c2, digitVal c3, digitVal c4 with
    | some a, some b, some c, some d => some (((a * 10 + b) * 10 + c) * 10 + d, rest)
    | _, _, _, _ => none
  | _ => none

/-- Go time.Parse with layout "01-2006": a two-digit month, a literal dash,
a four-digit year, nothing after (extra text is an error), and the month must
be in 1..12 (time.Parse range validation). -/
def goParseMonthYear (s : String) : Option (Nat × Nat) :=
  match getnum2 s.data with
  | none => none
  | some (m, rest) =>
    match rest with
    | c :: rest2 =>
      if c = '-' then
        match getnum4 rest2 with
        | none => none
        | some (y, rest3) =>
          if rest3 = [] then
            if 1 ≤ m ∧ m ≤ 12 then some (m, y) else none
          else none
      else none
    | [] => none

/-- Go strconv.Atoi: optional single sign, then a non-empty run of digits,
value within the 64-bit int range; anything else is an error (modelled as
none). -/
def goAtoi (s : String) : Option Int :=
  let p : Int × List Char :=
    match s.data with
    | '+' :: rest => (1, rest)
    | '-' :: rest => (-1, rest)
    | cs => (1, cs)
  if p.2.isEmpty then none
  else if p.2.all (fun c => c.isDigit) then
    let n : Nat := p.2.foldl (fun acc c => acc * 10 + (c.toNat - 48)) 0
    let v : Int := p.1 * (n : Int)
    if -(2 ^ 63) ≤ v ∧ v < 2 ^ 63 then some v else none
  else none

namespace HTTPService

/-- parseMonth from internal/service/http.go: time.Parse("01-2006", s), then
normalization to time.Date(year, month, 1, 0, 0, 0, 0, time.UTC). -/
def parseMonth (s : String) : Option GoDate :=
  match goParseMonthYear s with
  | none => none
  | some (m, y) => some ⟨y, m, 1, 0, 0, 0⟩

/-- The bound create request body (createReq): service_name, price, user_id,
start_date (MM-YYYY string), optional end_date string. No field validation is
performed after binding — the validate struct tags are never enforced by the
handler. -/
structure CreateReq where
  serviceName : String
  price : Int
  userId : UUID
  startDate : String
  endDate : Option String
deriving DecidableEq, Repr

/-- The bound update request body (updateReq): all four fields optional. -/
structure UpdateReq where
  serviceName : Option String
  price : Option Int
  startDate : Option String
  endDate : Option String
deriving DecidableEq, Repr

/-- HTTPService.Create on a body that bound successfully: parse start_date
(400 on error), parse end_date when present (400 on error), build the entity
with a fresh random id and now = time.Now().UTC() as both created_at and
updated_at, call the repository (500 on any repository error), else respond
201 with the entity. Returns (status, response entity, table state). -/
def create (store : Store) (req : CreateReq) (genId : UUID) (now : Nat) :
    Nat × Option Subscription × Store :=
  match parseMonth req.startDate with
  | none => (400, none, store)
  | some start =>
    match (match req.endDate with
           | none => some none
           | some es =>
             match parseMonth es with
             | none => none
             | some e => some (some e)) with
    | none => (400, none, store)
    | some endPtr =>
      let sub : Subscription :=
        { id := genId, serviceName := req.serviceName, price := req.price,
          userId := req.userId, startDate := start, endDate := endPtr,
          createdAt := now, updatedAt := now }
      match Repo.create store sub with
      | Except.error _ => (500, none, store)
      | Except.ok store2 => (201, some sub, store2)

/-- HTTPService.GetByID with an id that parsed as a UUID: repository lookup,
404 for ErrNotFound, 500 otherwise, 200 with the entity on success. -/
def getByID (store : Store) (id : UUID) : Nat × Option Subscription × Store :=
  match Repo.getByID store id with
  | Except.ok s => (200, some s, store)
  | Except.error RepoError.notFound => (404, none, store)
  | Except.error _ => (500, none, store)

/-- HTTPService.Update with an id that parsed as a UUID and a body that bound:
read the current record (404 / 500 on failure), overwrite each stored field
whose payload field is present — a present start_date/end_date string is
parsed with parseMonth and a parse failure aborts with 400; a present-but-empty
end_date clears the stored end date — refresh updated_at, then write through
the repository (404 / 500 on failure), 200 with the updated entity. -/
def update (store : Store) (id : UUID) (req : UpdateReq) (now : Nat) :
    Nat × Option Subscription × Store :=
  match Repo.getByID store id with
  | Except.error RepoError.notFound => (404, none, store)
  | Except.error _ => (500, none, store)
  | Except.ok sub0 =>
    let sub1 := match req.serviceName with
      | some n => { sub0 with serviceName := n }
      | none => sub0
    let sub2 := match req.price with
      | some p => { sub1 with price := p }
      | none => sub1
    match (match req.startDate with
           | none => some sub2
           | some s =>
             match parseMonth s with
             | none => none
             | some d => some { sub2 with startDate := d }) with
    | none => (400, none, store)
    | some sub3 =>
      match (match req.endDate with
             | none => some sub3
             | some es =>
               if es = "" then some { sub3 with endDate := none }
               else
                 match parseMonth es with
                 | none => none
                 | some d => some { sub3 with endDate := some d }) with
      | none => (400, none, store)
      | some sub4 =>
        let sub5 := { sub4 with updatedAt := now }
        match Repo.update store sub5 with
        | Except.error RepoError.notFound => (404, none, store)
        | Except.error _ => (500, none, store)
        | Except.ok store2 => (200, some sub5, store2)

/-- HTTPService.Delete with an id that parsed as a UUID: repository delete,
404 for ErrNotFound, 500 otherwise, 204 with no content. -/
def delete (store : Store) (id : UUID) : Nat × Store :=
  match Repo.delete store id with
  | Except.error RepoError.notFound => (404, store)
  | Except.error _ => (500, store)
  | Except.ok store2 => (204, store2)

/-- A user_id query parameter as the handler sees it: missing (empty string),
present and parsing as a UUID, or present but malformed. -/
inductive UuidParam where
  | absent
  | valid (u : UUID)
  | malformed
deriving DecidableEq, Repr

/-- Effective limit computation of HTTPService.List: start from 50; when the
limit query parameter is non-empty, parses via strconv.Atoi and lies in
(0, 500], use it; otherwise keep the default silently. -/
def effectiveLimit (v : String) : Int :=
  if v = "" then 50
  else
    match goAtoi v with
    | some n => if 0 < n ∧ n ≤ 500 then n else 50
    | none => 50

/-- Effective offset computation of HTTPService.List: start from 0; when the
offset query parameter is non-empty, parses via strconv.Atoi and is ≥ 0, use
it; otherwise keep the default silently. -/
def effectiveOffset (v : String) : Int :=
  if v = "" then 0
  else
    match goAtoi v with
    | some n => if 0 ≤ n then n else 0
    | none => 0

/-- The JSON body of a successful list response (listResp): data plus total,
where the handler sets Total := len(items). -/
structure ListResp where
  data : List Subscription
  total : Nat
deriving DecidableEq, Repr

/-- HTTPService.List: 400 only for a malformed user_id query parameter; a
non-empty service_name parameter becomes an equality filter; limit/offset are
computed leniently; the repository result is wrapped as {data, total} with
total = len(items). -/
def list (store : Store) (userP : UuidParam) (serviceP : Option String)
    (limV offV : String) : Nat × Option ListResp × Store :=
  match userP with
  | UuidParam.malformed => (400, none, store)
  | _ =>
    let uid : Option UUID := match userP with
      | UuidParam.valid u => some u
      | _ => none
    let f : SubscriptionFilter :=
      { userId := uid, serviceName := serviceP,
        limit := effectiveLimit limV, offset := effectiveOffset offV }
    let items := Repo.list store f
    (200, some { data := items, total := items.length }, store)

/-- HTTPService.CalculateCost: start_period and end_period are required (400
when either is the empty string), each must parse as MM-YYYY (400 otherwise),
then a malformed user_id parameter is 400, and the repository sum is returned
with status 200. -/
def calculateCost (store : Store) (startV endV : String) (userP : UuidParam)
    (serviceP : Option String) : Nat × Option Int × Store :=
  if startV = "" ∨ endV = "" then (400, none, store)
  else
    match parseMonth startV with
    | none => (400, none, store)
    | some start =>
      match parseMonth endV with
      | none => (400, none, store)
      | some stop =>
        match userP with
        | UuidParam.malformed => (400, none, store)
        | _ =>
          let uid : Option UUID := match userP with
            | UuidParam.valid u => some u
            | _ => none
          let f : CostFilter :=
            { userId := uid, serviceName := serviceP,
              startPeriod := start, endPeriod := stop }
          (200, some (Repo.calculateCost store f), store)

end HTTPService

/-- Discriminator for the OFFSET fragment of the built list query. -/
def Repo.Clause.isOffsetClause : Repo.Clause → Bool
  | Repo.Clause.offsetClause _ => true
  | _ => false

/-- The cost-selection predicate written following the spec's own wording:
the active window overlaps the requested period, defined as start_date <=
filter.end_period AND (end_date IS NULL OR end_date >= filter.start_period). -/
def specActiveOverlap (f : CostFilter) (s : Subscription) : Bool :=
  GoDate.le s.startDate f.endPeriod &&
    (s.endDate.isNone || s.endDate.any (fun e => GoDate.le f.startPeriod e))

/-- The optional user_id / service_name equality narrowing as the spec words
it. -/
def specNarrow (f : CostFilter) (s : Subscription) : Bool :=
  (match f.userId with
   | some u => s.userId == u
   | none => true) &&
  (match f.serviceName with
   | some n => s.serviceName == n
   | none => true)

/-- The cost total as the spec words it: the sum of price over the
subscriptions whose window overlaps the period, narrowed by the optional
equality filters. -/
def specCost (store : Store) (f : CostFilter) : Int :=
  ((store.filter (fun s => specActiveOverlap f s && specNarrow f s)).map
    (fun s => s.price)).sum

/-- One HTTP request to the service, carrying everything nondeterministic
about it: the bound payload, the freshly generated id for create, the
time.Now() instant for create/update. -/
inductive Op where
  | createOp (req : HTTPService.CreateReq) (genId : UUID) (now : Nat)
  | getOp (id : UUID)
  | updateOp (id : UUID) (req : HTTPService.UpdateReq) (now : Nat)
  | deleteOp (id : UUID)
  | listOp (userP : HTTPService.UuidParam) (serviceP : Option String) (limV offV : String)
  | costOp (startV endV : String) (userP : HTTPService.UuidParam) (serviceP : Option String)

/-- The table state after handling one request. -/
def Op.applyOp (store : Store) : Op → Store
  | Op.createOp req gid now => (HTTPService.create store req gid now).2.2
  | Op.getOp id => (HTTPService.getByID store id).2.2
  | Op.updateOp id req now => (HTTPService.update store id req now).2.2
  | Op.deleteOp id => (HTTPService.delete store id).2
  | Op.listOp u sp lv ov => (HTTPService.list store u sp lv ov).2.2
  | Op.costOp sv ev u sp => (HTTPService.calculateCost store sv ev u sp).2.2

/-- The table state after handling a sequence of requests. -/
def runOps (store : Store) : List Op → Store
  | [] => store
  | op :: ops => runOps (Op.applyOp store op) ops

/-- A date is month-normalized when its day-of-month component is 1. -/
def monthNormalized (d : GoDate) : Bool :=
  d.day == 1

/-- Row invariant: positive price, end date absent or not before the start
date, both dates month-normalized. -/
def subInv (s : Subscription) : Bool :=
  (0 < s.price : Bool) &&
  (match s.endDate with
   | none => true
   | some e => GoDate.le s.startDate e) &&
  monthNormalized s.startDate &&
  (match s.endDate with
   | none => true
   | some e => monthNormalized e)

/-- Table invariant: every row satisfies the row invariant and ids are
pairwise distinct. -/
def storeInv (store : Store) : Prop :=
  (∀ s ∈ store, subInv s = true) ∧ store.Pairwise (fun a b => a.id ≠ b.id)

/-- January 2024 as a month-normalized UTC date. -/
def jan2024 : GoDate := ⟨2024, 1, 1, 0, 0, 0⟩

/-- June 2024 as a month-normalized UTC date. -/
def jun2024 : GoDate := ⟨2024, 6, 1, 0, 0, 0⟩

/-- A concrete well-formed subscription row used by the witnesses. -/
def demoSub : Subscription :=
  { id := 1, serviceName := "Netflix", price := 999, userId := 7,
    startDate := jan2024, endDate := none, createdAt := 10, updatedAt := 10 }

/-- The demo row with a new price and refreshed update instant, as the update
path would produce it. -/
def demoSubNew : Subscription :=
  { demoSub with price := 1299, updatedAt := 20 }

/-- A concrete valid creation payload used by the witnesses; creating it with
generated id 1 at instant 10 produces exactly demoSub. -/
def demoCreateReq : HTTPService.CreateReq :=
  { serviceName := "Netflix", price := 999, userId := 7,
    startDate := "01-2024", endDate := none }

/-- A concrete price-only update payload used by the witnesses. -/
def demoUpdateReq : HTTPService.UpdateReq :=
  { serviceName := none, price := some 1299, startDate := none, endDate := none }

/-- The partial-update policy as the spec words it: each present optional
payload field overwrites the corresponding stored field and absent fields are
left untouched; a present-but-empty end_date clears the stored end date while
an absent end_date leaves it unchanged; a present non-empty date string must
parse as MM-YYYY; updated_at is refreshed; id, user_id and created_at are
kept from the stored record. -/
def specApplyUpdate (sub0 : Subscription) (req : HTTPService.UpdateReq)
    (now : Nat) : Option Subscription :=
  match (match req.startDate with
         | none => some sub0.startDate
         | some s => HTTPService.parseMonth s) with
  | none => none
  | some sd =>
    match (match req.endDate with
           | none => some sub0.endDate
           | some es =>
             if es = "" then some none
             else
               match HTTPService.parseMonth es with
               | none => none
               | some d => some (some d)) with
    | none => none
    | some ed =>
      some { sub0 with
        serviceName := req.serviceName.getD sub0.serviceName
        price := req.price.getD sub0.price
        startDate := sd
        endDate := ed
        updatedAt := now }

theorem foldl_add_eq_sum (l : List Int) (a : Int) : l.foldl (· + ·) a = a + l.sum := by
  induction l generalizing a with
  | nil => simp
  | cons x xs ih => simp [List.foldl_cons, ih (a + x), add_assoc]

theorem repo_update_ok_eq (store : Store) (sub : Subscription) (st2 : Store)
    (h : Repo.update store sub = Except.ok st2) :
    st2 = store.map (fun r => if r.id == sub.id then Repo.applyUpdateRow sub r else r) := by
  unfold Repo.update at h
  split at h
  · cases h
  · split at h
    · cases h
    · cases h; rfl

theorem repo_update_ok_fieldsOk (store : Store) (sub : Subscription) (st2 : Store)
    (h : Repo.update store sub = Except.ok st2) :
    fieldsOk sub.serviceName sub.price sub.startDate sub.endDate = true := by
  unfold Repo.update at h
  split at h
  · cases h
  · split at h
    · cases h
    · rename_i hnot
      simpa using hnot

theorem repo_getByID_ok_mem (store : Store) (id : UUID) (sub0 : Subscription)
    (h : Repo.getByID store id = Except.ok sub0) : sub0 ∈ store := by
  unfold Repo.getByID at h
  cases hf : store.find? (fun r => r.id == id) with
  | none => rw [hf] at h; cases h
  | some s => rw [hf] at h; cases h; exact List.mem_of_find?_eq_some hf

theorem parseMonth_month_normalized (s : String) (d : GoDate)
    (h : HTTPService.parseMonth s = some d) : monthNormalized d = true := by
  unfold HTTPService.parseMonth at h
  cases hg : goParseMonthYear s with
  | none => rw [hg] at h; cases h
  | some my =>
    obtain ⟨m, y⟩ := my
    rw [hg] at h
    cases h
    rfl

theorem subInv_parts (sub : Subscription) (h : subInv sub = true) :
    monthNormalized sub.startDate = true ∧
    (∀ e, sub.endDate = some e → monthNormalized e = true) := by
  unfold subInv at h
  cases he : sub.endDate with
  | none =>
    rw [he] at h
    simp only [Bool.and_eq_true] at h
    exact ⟨h.1.2, fun e h' => nomatch h'⟩
  | some e =>
    rw [he] at h
    simp only [Bool.and_eq_true] at h
    exact ⟨h.1.2, fun e' h' => by cases h'; exact h.2⟩

theorem subInv_of_rowOk (sub : Subscription) (hok : rowOk sub = true)
    (hday1 : monthNormalized sub.startDate = true)
    (hday2 : ∀ e, sub.endDate = some e → monthNormalized e = true) :
    subInv sub = true := by
  unfold rowOk fieldsOk at hok
  unfold subInv
  cases he : sub.endDate with
  | none =>
    rw [he] at hok
    simp only [Bool.and_eq_true] at hok
    simp [hok.1.1, hday1]
  | some e =>
    rw [he] at hok
    simp only [Bool.and_eq_true] at hok
    simp [hok.1.1, hok.2, hday1, hday2 e he]

theorem subInv_applyUpdateRow (sub5 r : Subscription)
    (hfields : fieldsOk sub5.serviceName sub5.price sub5.startDate sub5.endDate = true)
    (hday1 : monthNormalized sub5.startDate = true)
    (hday2 : ∀ e, sub5.endDate = some e → monthNormalized e = true) :
    subInv (Repo.applyUpdateRow sub5 r) = true := by
  unfold fieldsOk at hfields
  unfold subInv Repo.applyUpdateRow
  dsimp only
  cases he : sub5.endDate with
  | none =>
    rw [he] at hfields
    simp only [Bool.and_eq_true] at hfields
    simp [hfields.1.1, hday1]
  | some e =>
    rw [he] at hfields
    simp only [Bool.and_eq_true] at hfields
    simp [hfields.1.1, hfields.2, hday1, hday2 e he]

theorem applyUpdateRow_id (sub r : Subscription) :
    (Repo.applyUpdateRow sub r).id = r.id := rfl

theorem storeInv_after_repo_create (store : Store) (sub : Subscription)
    (hinv : storeInv store)
    (hday1 : monthNormalized sub.startDate = true)
    (hday2 : ∀ e, sub.endDate = some e → monthNormalized e = true)
    (st2 : Store) (h : Repo.create store sub = Except.ok st2) :
    storeInv st2 := by
  unfold Repo.create at h
  by_cases hany : store.any (fun r => r.id == sub.id) = true
  · rw [if_pos hany] at h; cases h
  · rw [if_neg hany] at h
    by_cases hok : rowOk sub = true
    · rw [if_neg (by simp [hok])] at h
      obtain rfl : store ++ [sub] = st2 := by cases h; rfl
      constructor
      · intro s hs
        rcases List.mem_append.mp hs with hs | hs
        · exact hinv.1 s hs
        · rcases List.mem_singleton.mp hs with rfl
          exact subInv_of_rowOk s hok hday1 hday2
      · rw [List.pairwise_append]
        refine ⟨hinv.2, List.pairwise_singleton _ _, ?_⟩
        intro a ha b hb
        rcases List.mem_singleton.mp hb with rfl
        have := List.any_eq_false.mp (Bool.eq_false_iff.mpr hany) a ha
        simpa using this
    · rw [if_pos (by simp [Bool.eq_false_iff.mpr hok])] at h; cases h

theorem storeInv_after_repo_update (store : Store) (sub5 : Subscription)
    (hinv : storeInv store)
    (hday1 : monthNormalized sub5.startDate = true)
    (hday2 : ∀ e, sub5.endDate = some e → monthNormalized e = true)
    (st2 : Store) (h : Repo.update store sub5 = Except.ok st2) :
    storeInv st2 := by
  have hfields := repo_update_ok_fieldsOk store sub5 st2 h
  obtain rfl := repo_update_ok_eq store sub5 st2 h
  constructor
  · intro r2 hr2
    rcases List.mem_map.mp hr2 with ⟨r, hr, rfl⟩
    by_cases hid : r.id == sub5.id
    · simp only [hid, if_true]
      exact subInv_applyUpdateRow sub5 r hfields hday1 hday2
    · simp only [hid, if_false]
      exact hinv.1 r hr
  · refine List.Pairwise.map _ (fun a b hab => ?_) hinv.2
    by_cases ha : a.id == sub5.id <;> by_cases hb : b.id == sub5.id <;>
      simp [ha, hb, Repo.applyUpdateRow, hab]

/-- C1: CalculateCost returns exactly the sum of price over the subscriptions
whose active window overlaps the requested period — start_date <= end_period
AND (end_date IS NULL OR end_date >= start_period) — narrowed by the optional
user_id / service_name equality filters, and returns 0 (not an error) when no
subscription matches. -/
theorem calculateCost_matches_spec (store : Store) (f : CostFilter) :
    Repo.calculateCost store f = specCost store f ∧
    ((∀ s ∈ store, (specActiveOverlap f s && specNarrow f s) = false) →
      Repo.calculateCost store f = 0) := by
  have hpred : ∀ s : Subscription,
      Repo.costWhere f.endPeriod f.startPeriod f.userId f.serviceName s =
        (specActiveOverlap f s && specNarrow f s) := by
    intro s
    unfold Repo.costWhere specActiveOverlap specNarrow
    cases s.endDate <;> simp [Bool.and_assoc]
  have hmain : Repo.calculateCost store f = specCost store f := by
    unfold Repo.calculateCost specCost
    rw [List.filter_congr (fun s _ => hpred s), foldl_add_eq_sum, zero_add]
  refine ⟨hmain, fun h => ?_⟩
  have hnil : store.filter (fun s => specActiveOverlap f s && specNarrow f s) = [] := by
    refine List.filter_eq_nil_iff.mpr fun s hs => ?_
    simp [h s hs]
  rw [hmain]
  unfold specCost
  rw [hnil]
  rfl

/-- Witness for C1: a concrete store where the user_id narrowing rejects the
only row, so the cost is 0. -/
theorem calculateCost_matches_spec_witness :
    Repo.calculateCost [demoSub]
      { userId := some 99, serviceName := none,
        startPeriod := jan2024, endPeriod := jun2024 } = 0 :=
  (calculateCost_matches_spec [demoSub]
    { userId := some 99, serviceName := none,
      startPeriod := jan2024, endPeriod := jun2024 }).2 (by decide)

/-- C4 (amended): the list query is built by appending conjunctive fragments
in the fixed order user_id (when present), service_name (when present), the
ordering clause, then LIMIT exactly when filter.Limit > 0 and OFFSET exactly
when filter.Offset > 0, with consecutive positional-argument indexes. -/
theorem list_clause_order (f : SubscriptionFilter) :
    Repo.listClauses f =
      (if f.userId.isSome then [Repo.Clause.userIdEq 1] else []) ++
      (if f.serviceName.isSome then
        [Repo.Clause.serviceNameEq (if f.userId.isSome then 2 else 1)] else []) ++
      [Repo.Clause.orderByCreatedAtDesc] ++
      (if f.limit > 0 then
        [Repo.Clause.limitClause
          ((if f.userId.isSome then 1 else 0) + (if f.serviceName.isSome then 1 else 0) + 1)]
       else []) ++
      (if f.offset > 0 then
        [Repo.Clause.offsetClause
          ((if f.userId.isSome then 1 else 0) + (if f.serviceName.isSome then 1 else 0) +
            (if f.limit > 0 then 1 else 0) + 1)]
       else []) := by
  rcases f with ⟨u, s, l, o⟩
  cases u <;> cases s <;> by_cases hl : l > 0 <;> by_cases ho : o > 0 <;>
    simp [Repo.listClauses, hl, ho]

/-- Counterexample for C4 as stated: a filter whose offset field is 0 — a
non-negative value — produces a query with no OFFSET fragment, so the OFFSET
clause is not applied whenever the offset is non-negative, only when it is
strictly positive. -/
theorem list_offset_zero_counterexample :
    (({ userId := none, serviceName := none, limit := 50, offset := 0 } :
        SubscriptionFilter).offset ≥ 0) ∧
    (Repo.listClauses
        { userId := none, serviceName := none, limit := 50, offset := 0 }).all
      (fun c => !c.isOffsetClause) = true := by
  constructor
  · decide
  · rfl

/-- C5: the repository update overwrites exactly the mutable fields
(service_name, price, start_date, end_date, updated_at) of the rows keyed by
id, never rewrites id, user_id or created_at, and fails with NotFound exactly
when no row matches the id. -/
theorem repo_update_frame (store : Store) (sub : Subscription) :
    (Repo.update store sub = Except.error RepoError.notFound ↔
      ∀ r ∈ store, r.id ≠ sub.id) ∧
    (∀ store2, Repo.update store sub = Except.ok store2 →
      store2 = store.map (fun r => if r.id == sub.id then Repo.applyUpdateRow sub r else r) ∧
      ∀ r2 ∈ store2, ∃ r ∈ store,
        r2.id = r.id ∧ r2.userId = r.userId ∧ r2.createdAt = r.createdAt ∧
        (r.id = sub.id → r2 = Repo.applyUpdateRow sub r) ∧
        (r.id ≠ sub.id → r2 = r)) := by
  unfold Repo.update
  by_cases hall : store.all (fun r => r.id != sub.id)
  · rw [if_pos hall]
    refine ⟨⟨fun _ => ?_, fun _ => rfl⟩, fun store2 h => by cases h⟩
    intro r hr
    have := List.all_eq_true.mp hall r hr
    simpa using this
  · rw [if_neg hall]
    have hex : ∃ r ∈ store, r.id = sub.id := by
      rcases List.all_eq_false.mp (Bool.eq_false_iff.mpr hall) with ⟨r, hr, hne⟩
      exact ⟨r, hr, by simpa using hne⟩
    constructor
    · constructor
      · intro h
        by_cases hok : fieldsOk sub.serviceName sub.price sub.startDate sub.endDate
        · rw [if_neg (by simp [hok])] at h
          cases h
        · rw [if_pos (by simp [hok])] at h
          cases h
      · intro h
        rcases hex with ⟨r, hr, hid⟩
        exact absurd hid (h r hr)
    · intro store2 h
      by_cases hok : fieldsOk sub.serviceName sub.price sub.startDate sub.endDate
      · rw [if_neg (by simp [hok])] at h
        have hst : store2 =
            store.map (fun r => if r.id == sub.id then Repo.applyUpdateRow sub r else r) := by
          cases h; rfl
        refine ⟨hst, ?_⟩
        intro r2 hr2
        rw [hst] at hr2
        rcases List.mem_map.mp hr2 with ⟨r, hr, hfr⟩
        refine ⟨r, hr, ?_⟩
        by_cases hid : r.id = sub.id
        · rw [if_pos (by simpa using hid)] at hfr
          subst hfr
          exact ⟨rfl, rfl, rfl, fun _ => rfl, fun hne => absurd hid hne⟩
        · rw [if_neg (by simpa using hid)] at hfr
          subst hfr
          exact ⟨rfl, rfl, rfl, fun h => absurd h hid, fun _ => rfl⟩
      · rw [if_pos (by simp [hok])] at h
        cases h

/-- Witness for C5: updating the demo row's price produces exactly the mapped
store, keeping id, user_id and created_at. -/
theorem repo_update_frame_witness :
    ([Repo.applyUpdateRow demoSubNew demoSub] : Store) =
      [demoSub].map
        (fun r => if r.id == demoSubNew.id then Repo.applyUpdateRow demoSubNew r else r) :=
  ((repo_update_frame [demoSub] demoSubNew).2
    [Repo.applyUpdateRow demoSubNew demoSub] (by rfl)).1

/-- C6: the effective limit is the supplied query value exactly when it
parses as an integer in (0, 500] and is silently replaced by the default 50
otherwise; the effective offset is the supplied value exactly when it parses
as a non-negative integer and the default 0 otherwise; and no limit/offset
value makes the list handler answer 400. -/
theorem list_pagination_leniency (limV offV : String) :
    (∀ n : Int, goAtoi limV = some n → 0 < n → n ≤ 500 →
      HTTPService.effectiveLimit limV = n) ∧
    ((∀ n : Int, goAtoi limV = some n → ¬(0 < n ∧ n ≤ 500)) →
      HTTPService.effectiveLimit limV = 50) ∧
    (goAtoi limV = none → HTTPService.effectiveLimit limV = 50) ∧
    (∀ n : Int, goAtoi offV = some n → 0 ≤ n →
      HTTPService.effectiveOffset offV = n) ∧
    ((∀ n : Int, goAtoi offV = some n → n < 0) →
      HTTPService.effectiveOffset offV = 0) ∧
    (goAtoi offV = none → HTTPService.effectiveOffset offV = 0) ∧
    (∀ (store : Store) (userP : HTTPService.UuidParam) (serviceP : Option String),
      userP ≠ HTTPService.UuidParam.malformed →
      (HTTPService.list store userP serviceP limV offV).1 = 200) := by
  have hempty : goAtoi "" = none := rfl
  refine ⟨?_, ?_, ?_, ?_, ?_, ?_, ?_⟩
  · intro n hn h1 h2
    unfold HTTPService.effectiveLimit
    by_cases he : limV = ""
    · rw [he, hempty] at hn; cases hn
    · rw [if_neg he, hn]
      simp [h1, h2]
  · intro h
    unfold HTTPService.effectiveLimit
    by_cases he : limV = ""
    · rw [if_pos he]
    · rw [if_neg he]
      cases hg : goAtoi limV with
      | none => rfl
      | some n => simp [h n hg]
  · intro h
    unfold HTTPService.effectiveLimit
    by_cases he : limV = ""
    · rw [if_pos he]
    · rw [if_neg he, h]
  · intro n hn h0
    unfold HTTPService.effectiveOffset
    by_cases he : offV = ""
    · rw [he, hempty] at hn; cases hn
    · rw [if_neg he, hn]
      simp [h0]
  · intro h
    unfold HTTPService.effectiveOffset
    by_cases he : offV = ""
    · rw [if_pos he]
    · rw [if_neg he]
      cases hg : goAtoi offV with
      | none => rfl
      | some n => simp [not_le.mpr (h n hg)]
  · intro h
    unfold HTTPService.effectiveOffset
    by_cases he : offV = ""
    · rw [if_pos he]
    · rw [if_neg he, h]
  · intro store userP serviceP hne
    cases userP with
    | malformed => exact absurd rfl hne
    | absent => rfl
    | valid u => rfl

/-- Witness for C6: limit 9999 and limit 0 and a non-numeric limit fall back
to 50, offset 7 is taken as supplied. -/
theorem list_pagination_leniency_witness :
    HTTPService.effectiveLimit "9999" = 50 ∧ HTTPService.effectiveLimit "abc" = 50 ∧
    HTTPService.effectiveLimit "0" = 50 ∧ HTTPService.effectiveOffset "7" = 7 := by
  refine ⟨?_, ?_, ?_, ?_⟩
  · exact (list_pagination_leniency "9999" "7").2.1 (fun n hn => by
      rw [show goAtoi "9999" = some 9999 from rfl] at hn
      cases hn; decide)
  · exact (list_pagination_leniency "abc" "7").2.2.1 rfl
  · exact (list_pagination_leniency "0" "7").2.1 (fun n hn => by
      rw [show goAtoi "0" = some 0 from rfl] at hn
      cases hn; decide)
  · exact (list_pagination_leniency "50" "7").2.2.2.1 7 rfl (by decide)

/-- C10: every successful list response reports total equal to the length of
the returned page, not the number of stored rows matching the filter. -/
theorem list_total_is_page_length (store : Store) (userP : HTTPService.UuidParam)
    (serviceP : Option String) (limV offV : String) (resp : HTTPService.ListResp)
    (h : (HTTPService.list store userP serviceP limV offV).2.1 = some resp) :
    resp.total = resp.data.length := by
  cases userP with
  | malformed => simp [HTTPService.list] at h
  | absent =>
    simp only [HTTPService.list, Option.some.injEq] at h
    rw [← h]
  | valid u =>
    simp only [HTTPService.list, Option.some.injEq] at h
    rw [← h]

/-- Witness for C10: a one-row store listed with default pagination reports
total 1 for a one-element page. -/
theorem list_total_is_page_length_witness :
    ({ data := [demoSub], total := 1 } : HTTPService.ListResp).total =
      ({ data := [demoSub], total := 1 } : HTTPService.ListResp).data.length :=
  list_total_is_page_length [demoSub] HTTPService.UuidParam.absent none "" ""
    { data := [demoSub], total := 1 }
    (by simp [HTTPService.list, Repo.list, Repo.listWhere,
      HTTPService.effectiveLimit, HTTPService.effectiveOffset])

/-- C3 (code divergence): the create handler never enforces the declared
field validation — a create whose body binds with an empty service_name is
inserted and answered 201, and one with price 0 reaches the store and is
answered 500 from the constraint failure; neither is the 400 the declared
validation would produce. -/
theorem create_skips_declared_validation :
    ((HTTPService.create []
        { serviceName := "", price := 999, userId := 7,
          startDate := "01-2024", endDate := none } 1 0).1 = 201 ∧
     (HTTPService.create []
        { serviceName := "", price := 999, userId := 7,
          startDate := "01-2024", endDate := none } 1 0).2.2.length = 1) ∧
    ((HTTPService.create []
        { serviceName := "Netflix", price := 0, userId := 7,
          startDate := "01-2024", endDate := none } 2 0).1 = 500 ∧
     (HTTPService.create []
        { serviceName := "Netflix", price := 0, userId := 7,
          startDate := "01-2024", endDate := none } 2 0).2.2 = []) := by
  exact ⟨⟨rfl, rfl⟩, ⟨rfl, rfl⟩⟩

theorem repo_create_ok_getByID (store : Store) (sub : Subscription) (st2 : Store)
    (h : Repo.create store sub = Except.ok st2) :
    Repo.getByID st2 sub.id = Except.ok sub := by
  unfold Repo.create at h
  by_cases hany : store.any (fun r => r.id == sub.id) = true
  · rw [if_pos hany] at h; cases h
  · rw [if_neg hany] at h
    by_cases hok : rowOk sub = true
    · rw [if_neg (by simp [hok])] at h
      obtain rfl : store ++ [sub] = st2 := by cases h; rfl
      have hfind : store.find? (fun r => r.id == sub.id) = none :=
        List.find?_eq_none.mpr fun x hx => by
          simpa using (List.any_eq_false.mp (Bool.eq_false_iff.mpr hany)) x hx
      unfold Repo.getByID
      rw [List.find?_append]
      simp [hfind]
    · rw [if_pos (by simp [Bool.eq_false_iff.mpr hok])] at h; cases h

/-- C7: a create answered 201 yields an entity whose server-assigned
timestamps satisfy updated_at = created_at = now, whose remaining fields come
from the request, and fetching the returned id from the resulting store
returns exactly that entity. -/
theorem create_get_round_trip (store : Store) (req : HTTPService.CreateReq)
    (gid : UUID) (now : Nat) (e : Subscription) (store2 : Store)
    (h : HTTPService.create store req gid now = (201, some e, store2)) :
    e.updatedAt = e.createdAt ∧ e.createdAt = now ∧
    e.serviceName = req.serviceName ∧ e.price = req.price ∧ e.userId = req.userId ∧
    e.id = gid ∧
    Repo.getByID store2 e.id = Except.ok e := by
  unfold HTTPService.create at h
  split at h
  · simp at h
  · split at h
    · simp at h
    · dsimp only at h
      split at h
      · simp at h
      · rename_i st2 hcreate
        simp only [Prod.mk.injEq, Option.some.injEq, true_and] at h
        obtain ⟨he, hst⟩ := h
        subst hst
        subst he
        exact ⟨rfl, rfl, rfl, rfl, rfl, rfl, repo_create_ok_getByID store _ _ hcreate⟩

/-- Witness for C7: the demo create round-trips through the repository. -/
theorem create_get_round_trip_witness :
    Repo.getByID ((HTTPService.create [] demoCreateReq 1 10).2.2) demoSub.id =
      Except.ok demoSub :=
  (create_get_round_trip [] demoCreateReq 1 10 demoSub
    ((HTTPService.create [] demoCreateReq 1 10).2.2) (by rfl)).2.2.2.2.2.2

theorem update_characterization (store : Store) (id : UUID)
    (req : HTTPService.UpdateReq) (now : Nat) (st : Nat)
    (body : Option Subscription) (st2 : Store)
    (h : HTTPService.update store id req now = (st, body, st2)) :
    (body = none ∧ st2 = store) ∨
    (∃ e sub0, body = some e ∧ st = 200 ∧
      Repo.getByID store id = Except.ok sub0 ∧
      specApplyUpdate sub0 req now = some e ∧
      Repo.update store e = Except.ok st2) := by
  unfold HTTPService.update at h
  split at h
  · left; simp only [Prod.mk.injEq] at h; exact ⟨h.2.1.symm, h.2.2.symm⟩
  · left; simp only [Prod.mk.injEq] at h; exact ⟨h.2.1.symm, h.2.2.symm⟩
  · rename_i sub0 hget
    dsimp only at h
    split at h
    · left; simp only [Prod.mk.injEq] at h; exact ⟨h.2.1.symm, h.2.2.symm⟩
    · rename_i sub3 heqsd
      split at h
      · left; simp only [Prod.mk.injEq] at h; exact ⟨h.2.1.symm, h.2.2.symm⟩
      · rename_i sub4 heqed
        split at h
        · left; simp only [Prod.mk.injEq] at h; exact ⟨h.2.1.symm, h.2.2.symm⟩
        · left; simp only [Prod.mk.injEq] at h; exact ⟨h.2.1.symm, h.2.2.symm⟩
        · rename_i st2' hupd
          simp only [Prod.mk.injEq] at h
          obtain ⟨hst, hbody, hst2⟩ := h
          subst hst
          subst hst2
          right
          refine ⟨_, sub0, hbody.symm, rfl, hget, ?_, hupd⟩
          clear hbody hupd hget
          obtain ⟨sn, pr, sd, ed⟩ := req
          unfold specApplyUpdate
          dsimp only at heqsd heqed ⊢
          cases sd with
          | none =>
            cases heqsd
            cases ed with
            | none =>
              cases heqed
              cases sn <;> cases pr <;> rfl
            | some es =>
              dsimp only at heqed ⊢
              by_cases hes : es = ""
              · rw [if_pos hes] at heqed
                cases heqed
                rw [if_pos hes]
                cases sn <;> cases pr <;> rfl
              · rw [if_neg hes] at heqed
                rw [if_neg hes]
                cases hpe : HTTPService.parseMonth es with
                | none => rw [hpe] at heqed; cases heqed
                | some d =>
                  rw [hpe] at heqed
                  cases heqed
                  cases sn <;> cases pr <;> rfl
          | some s =>
            dsimp only at heqsd ⊢
            cases hps : HTTPService.parseMonth s with
            | none => rw [hps] at heqsd; cases heqsd
            | some d =>
              rw [hps] at heqsd
              cases heqsd
              cases ed with
              | none =>
                cases heqed
                cases sn <;> cases pr <;> rfl
              | some es =>
                dsimp only at heqed ⊢
                by_cases hes : es = ""
                · rw [if_pos hes] at heqed
                  cases heqed
                  rw [if_pos hes]
                  cases sn <;> cases pr <;> rfl
                · rw [if_neg hes] at heqed
                  rw [if_neg hes]
                  cases hpe : HTTPService.parseMonth es with
                  | none => rw [hpe] at heqed; cases heqed
                  | some d2 =>
                    rw [hpe] at heqed
                    cases heqed
                    cases sn <;> cases pr <;> rfl

/-- C2: a 200-answered update on an existing subscription realizes exactly
the partial-update policy — each present payload field overwrites the stored
field, absent fields are untouched, a present-but-empty end_date clears the
stored end date, updated_at is refreshed, id / user_id / created_at are kept
— and the store rewrites exactly the mutable fields of the row keyed by the
id. -/
theorem update_partial_semantics (store : Store) (id : UUID)
    (req : HTTPService.UpdateReq) (now : Nat) (sub0 e : Subscription)
    (store2 : Store)
    (hget : Repo.getByID store id = Except.ok sub0)
    (hres : HTTPService.update store id req now = (200, some e, store2)) :
    specApplyUpdate sub0 req now = some e ∧
    store2 = store.map (fun r => if r.id == e.id then Repo.applyUpdateRow e r else r) := by
  rcases update_characterization store id req now 200 (some e) store2 hres with
    ⟨hnone, _⟩ | ⟨e', sub0', hbody, _, hget', hspec, hupd⟩
  · cases hnone
  · cases hbody
    obtain rfl : sub0 = sub0' := by
      have h := hget.symm.trans hget'
      cases h
      rfl
    exact ⟨hspec, repo_update_ok_eq store _ store2 hupd⟩

/-- Witness for C2: a price-only update of the demo row changes price and
updated_at and rewrites exactly that row. -/
theorem update_partial_semantics_witness :
    specApplyUpdate demoSub demoUpdateReq 20 = some demoSubNew ∧
    ([demoSubNew] : Store) =
      [demoSub].map
        (fun r => if r.id == demoSubNew.id then Repo.applyUpdateRow demoSubNew r else r) :=
  update_partial_semantics [demoSub] 1 demoUpdateReq 20 demoSub demoSubNew
    [demoSubNew] (by rfl) (by rfl)

theorem specApplyUpdate_day_facts (sub0 : Subscription) (req : HTTPService.UpdateReq)
    (now : Nat) (e : Subscription) (h : specApplyUpdate sub0 req now = some e)
    (h1 : monthNormalized sub0.startDate = true)
    (h2 : ∀ d, sub0.endDate = some d → monthNormalized d = true) :
    monthNormalized e.startDate = true ∧
    (∀ d, e.endDate = some d → monthNormalized d = true) := by
  unfold specApplyUpdate at h
  split at h
  · cases h
  · rename_i sd hsd
    split at h
    · cases h
    · rename_i ed hed
      cases h
      refine ⟨?_, ?_⟩
      · cases hrs : req.startDate with
        | none => rw [hrs] at hsd; cases hsd; exact h1
        | some s => rw [hrs] at hsd; exact parseMonth_month_normalized s sd hsd
      · intro d hd
        cases hre : req.endDate with
        | none => rw [hre] at hed; cases hed; exact h2 d hd
        | some es =>
          rw [hre] at hed
          dsimp only at hed
          by_cases hes : es = ""
          · rw [if_pos hes] at hed
            cases hed
            cases hd
          · rw [if_neg hes] at hed
            cases hpe : HTTPService.parseMonth es with
            | none => rw [hpe] at hed; cases hed
            | some d2 =>
              rw [hpe] at hed
              cases hed
              cases hd
              exact parseMonth_month_normalized es _ hpe

theorem storeInv_create_op (store : Store) (req : HTTPService.CreateReq)
    (gid : UUID) (now : Nat) (hinv : storeInv store) :
    storeInv ((HTTPService.create store req gid now).2.2) := by
  unfold HTTPService.create
  split
  · exact hinv
  · rename_i start hstart
    split
    · exact hinv
    · rename_i endPtr hend
      dsimp only
      split
      · exact hinv
      · rename_i st2 hc
        refine storeInv_after_repo_create store _ hinv ?_ ?_ st2 hc
        · exact parseMonth_month_normalized _ start hstart
        · intro e he
          cases hre : req.endDate with
          | none => rw [hre] at hend; cases hend; cases he
          | some es =>
            rw [hre] at hend
            dsimp only at hend
            cases hpe : HTTPService.parseMonth es with
            | none => rw [hpe] at hend; cases hend
            | some d =>
              rw [hpe] at hend
              cases hend
              cases he
              exact parseMonth_month_normalized es _ hpe

theorem storeInv_update_op (store : Store) (id : UUID)
    (req : HTTPService.UpdateReq) (now : Nat) (hinv : storeInv store) :
    storeInv ((HTTPService.update store id req now).2.2) := by
  rcases update_characterization store id req now
      (HTTPService.update store id req now).1
      (HTTPService.update store id req now).2.1
      (HTTPService.update store id req now).2.2 rfl with
    ⟨_, hsame⟩ | ⟨e, sub0, _, _, hget, hspec, hupd⟩
  · rw [hsame]; exact hinv
  · have hs0 := subInv_parts sub0 (hinv.1 sub0 (repo_getByID_ok_mem store id sub0 hget))
    have hdays := specApplyUpdate_day_facts sub0 req now e hspec hs0.1 hs0.2
    exact storeInv_after_repo_update store e hinv hdays.1 hdays.2 _ hupd

theorem storeInv_delete_op (store : Store) (id : UUID) (hinv : storeInv store) :
    storeInv ((HTTPService.delete store id).2) := by
  unfold HTTPService.delete
  cases hd : Repo.delete store id with
  | error e => cases e <;> exact hinv
  | ok st2 =>
    dsimp only
    unfold Repo.delete at hd
    split at hd
    · cases hd
    · cases hd
      exact ⟨fun s hs => hinv.1 s (List.mem_of_mem_filter hs), hinv.2.filter _⟩

theorem storeInv_get_op (store : Store) (id : UUID) (hinv : storeInv store) :
    storeInv ((HTTPService.getByID store id).2.2) := by
  unfold HTTPService.getByID
  cases Repo.getByID store id with
  | error e => cases e <;> exact hinv
  | ok s => exact hinv

theorem storeInv_list_op (store : Store) (userP : HTTPService.UuidParam)
    (serviceP : Option String) (limV offV : String) (hinv : storeInv store) :
    storeInv ((HTTPService.list store userP serviceP limV offV).2.2) := by
  cases userP <;> exact hinv

theorem storeInv_cost_op (store : Store) (startV endV : String)
    (userP : HTTPService.UuidParam) (serviceP : Option String)
    (hinv : storeInv store) :
    storeInv ((HTTPService.calculateCost store startV endV userP serviceP).2.2) := by
  unfold HTTPService.calculateCost
  split
  · exact hinv
  · split
    · exact hinv
    · split
      · exact hinv
      · split <;> exact hinv

theorem storeInv_apply (store : Store) (op : Op) (hinv : storeInv store) :
    storeInv (Op.applyOp store op) := by
  cases op with
  | createOp req gid now => exact storeInv_create_op store req gid now hinv
  | getOp id => exact storeInv_get_op store id hinv
  | updateOp id req now => exact storeInv_update_op store id req now hinv
  | deleteOp id => exact storeInv_delete_op store id hinv
  | listOp u sp lv ov => exact storeInv_list_op store u sp lv ov hinv
  | costOp sv ev u sp => exact storeInv_cost_op store sv ev u sp hinv

/-- C9: after any sequence of the six operations starting from a store
satisfying the invariants, every stored subscription keeps price > 0,
end_date absent or not before start_date, both dates month-normalized
(day-of-month 1), and ids pairwise distinct. -/
theorem ops_preserve_invariants (store : Store) (ops : List Op)
    (hinv : storeInv store) : storeInv (runOps store ops) := by
  induction ops generalizing store with
  | nil => exact hinv
  | cons op rest ih => exact ih (Op.applyOp store op) (storeInv_apply store op hinv)

/-- Witness for C9: a create, an update and a delete starting from the empty
store keep the invariants. -/
theorem ops_preserve_invariants_witness :
    storeInv (runOps []
      [Op.createOp demoCreateReq 1 10, Op.updateOp 1 demoUpdateReq 20,
        Op.deleteOp 2]) :=
  ops_preserve_invariants []
    [Op.createOp demoCreateReq 1 10, Op.updateOp 1 demoUpdateReq 20,
      Op.deleteOp 2]
    ⟨fun s hs => absurd hs (List.not_mem_nil s), List.Pairwise.nil⟩

theorem getnum2_some_shape (cs : List Char) (m : Nat) (rest : List Char)
    (h : getnum2 cs = some (m, rest)) :
    ∃ c1 c2, cs = c1 :: c2 :: rest ∧ c1.isDigit = true ∧ c2.isDigit = true ∧
      m = (c1.toNat - 48) * 10 + (c2.toNat - 48) := by
  cases cs with
  | nil => cases h
  | cons c1 t =>
    cases t with
    | nil => cases h
    | cons c2 r =>
      unfold getnum2 digitVal at h
      dsimp only at h
      by_cases h1 : c1.isDigit = true
      · by_cases h2 : c2.isDigit = true
        · rw [if_pos h1, if_pos h2] at h
          dsimp only at h
          simp only [Option.some.injEq, Prod.mk.injEq] at h
          exact ⟨c1, c2, by rw [h.2], h1, h2, h.1.symm⟩
        · rw [if_pos h1, if_neg h2] at h
          cases h
      · by_cases h2 : c2.isDigit = true
        · rw [if_neg h1, if_pos h2] at h
          cases h
        · rw [if_neg h1, if_neg h2] at h
          cases h

theorem getnum4_some_shape (cs : List Char) (y : Nat) (rest : List Char)
    (h : getnum4 cs = some (y, rest)) :
    ∃ c3 c4 c5 c6, cs = c3 :: c4 :: c5 :: c6 :: rest ∧
      c3.isDigit = true ∧ c4.isDigit = true ∧ c5.isDigit = true ∧ c6.isDigit = true ∧
      y = (((c3.toNat - 48) * 10 + (c4.toNat - 48)) * 10 + (c5.toNat - 48)) * 10 +
        (c6.toNat - 48) := by
  cases cs with
  | nil => cases h
  | cons c3 t1 =>
    cases t1 with
    | nil => cases h
    | cons c4 t2 =>
      cases t2 with
      | nil => cases h
      | cons c5 t3 =>
        cases t3 with
        | nil => cases h
        | cons c6 r =>
          unfold getnum4 digitVal at h
          dsimp only at h
          by_cases h3 : c3.isDigit = true
          · by_cases h4 : c4.isDigit = true
            · by_cases h5 : c5.isDigit = true
              · by_cases h6 : c6.isDigit = true
                · rw [if_pos h3, if_pos h4, if_pos h5, if_pos h6] at h
                  dsimp only at h
                  simp only [Option.some.injEq, Prod.mk.injEq] at h
                  exact ⟨c3, c4, c5, c6, by rw [h.2], h3, h4, h5, h6, h.1.symm⟩
                · rw [if_pos h3, if_pos h4, if_pos h5, if_neg h6] at h; cases h
              · rw [if_pos h3, if_pos h4, if_neg h5] at h
                by_cases h6 : c6.isDigit = true
                · rw [if_pos h6] at h; cases h
                · rw [if_neg h6] at h; cases h
            · rw [if_pos h3, if_neg h4] at h
              by_cases h5 : c5.isDigit = true <;> by_cases h6 : c6.isDigit = true <;>
                simp [h5, h6] at h
          · rw [if_neg h3] at h
            by_cases h4 : c4.isDigit = true <;> by_cases h5 : c5.isDigit = true <;>
              by_cases h6 : c6.isDigit = true <;> simp [h4, h5, h6] at h

theorem getnum2_digits (c1 c2 : Char) (r : List Char)
    (h1 : c1.isDigit = true) (h2 : c2.isDigit = true) :
    getnum2 (c1 :: c2 :: r) = some ((c1.toNat - 48) * 10 + (c2.toNat - 48), r) := by
  unfold getnum2 digitVal
  dsimp only
  rw [if_pos h1, if_pos h2]

theorem getnum4_digits (c3 c4 c5 c6 : Char) (r : List Char)
    (h3 : c3.isDigit = true) (h4 : c4.isDigit = true) (h5 : c5.isDigit = true)
    (h6 : c6.isDigit = true) :
    getnum4 (c3 :: c4 :: c5 :: c6 :: r) =
      some ((((c3.toNat - 48) * 10 + (c4.toNat - 48)) * 10 + (c5.toNat - 48)) * 10 +
        (c6.toNat - 48), r) := by
  unfold getnum4 digitVal
  dsimp only
  rw [if_pos h3, if_pos h4, if_pos h5, if_pos h6]

/-- C8 (amended): a date string accepted by parseMonth is exactly a two-digit
month in 01..12, a dash and a four-digit year, and parses to the first
calendar day of that month at midnight UTC (day 1, time components 0); a
well-formed string always parses; and a date-position string that does not
parse makes create (start_date or end_date position), update (start_date or
non-empty end_date position) and cost (start_period or end_period position)
answer 400 with the store unchanged. The one exception to the claim as
stated: update's present-but-empty end_date is the clear-end-date marker and
is accepted, not rejected. -/
theorem parse_month_normalization (s : String) (store : Store) :
    (∀ d, HTTPService.parseMonth s = some d →
      d.day = 1 ∧ d.hour = 0 ∧ d.minute = 0 ∧ d.second = 0 ∧
      1 ≤ d.month ∧ d.month ≤ 12 ∧
      ∃ c1 c2 c3 c4 c5 c6 : Char,
        s.data = [c1, c2, '-', c3, c4, c5, c6] ∧
        c1.isDigit = true ∧ c2.isDigit = true ∧ c3.isDigit = true ∧
        c4.isDigit = true ∧ c5.isDigit = true ∧ c6.isDigit = true ∧
        d.month = (c1.toNat - 48) * 10 + (c2.toNat - 48) ∧
        d.year = (((c3.toNat - 48) * 10 + (c4.toNat - 48)) * 10 +
          (c5.toNat - 48)) * 10 + (c6.toNat - 48)) ∧
    (∀ c1 c2 c3 c4 c5 c6 : Char,
      s.data = [c1, c2, '-', c3, c4, c5, c6] →
      c1.isDigit = true → c2.isDigit = true → c3.isDigit = true →
      c4.isDigit = true → c5.isDigit = true → c6.isDigit = true →
      1 ≤ (c1.toNat - 48) * 10 + (c2.toNat - 48) →
      (c1.toNat - 48) * 10 + (c2.toNat - 48) ≤ 12 →
      HTTPService.parseMonth s =
        some ⟨(((c3.toNat - 48) * 10 + (c4.toNat - 48)) * 10 + (c5.toNat - 48)) * 10 +
          (c6.toNat - 48), (c1.toNat - 48) * 10 + (c2.toNat - 48), 1, 0, 0, 0⟩) ∧
    (HTTPService.parseMonth s = none →
      (∀ req gid now, req.startDate = s →
        HTTPService.create store req gid now = (400, none, store)) ∧
      (∀ req gid now, req.endDate = some s →
        (HTTPService.create store req gid now).1 = 400 ∧
        (HTTPService.create store req gid now).2.2 = store) ∧
      (∀ idv req now sub0, Repo.getByID store idv = Except.ok sub0 →
        req.startDate = some s →
        HTTPService.update store idv req now = (400, none, store)) ∧
      (∀ idv req now sub0, Repo.getByID store idv = Except.ok sub0 →
        req.endDate = some s → s ≠ "" →
        HTTPService.update store idv req now = (400, none, store)) ∧
      (∀ endV userP serviceP,
        HTTPService.calculateCost store s endV userP serviceP = (400, none, store)) ∧
      (∀ startV userP serviceP,
        HTTPService.calculateCost store startV s userP serviceP = (400, none, store))) := by
  refine ⟨?_, ?_, ?_⟩
  · intro d hd
    unfold HTTPService.parseMonth at hd
    cases hg : goParseMonthYear s with
    | none => rw [hg] at hd; cases hd
    | some my =>
      obtain ⟨m, y⟩ := my
      rw [hg] at hd
      cases hd
      unfold goParseMonthYear at hg
      split at hg
      · cases hg
      · rename_i m' rest hg2
        split at hg
        · rename_i c rest2
          split at hg
          · rename_i hdash
            split at hg
            · cases hg
            · rename_i y' rest3 hg4
              split at hg
              · rename_i hrest3
                split at hg
                · rename_i hrange
                  simp only [Option.some.injEq, Prod.mk.injEq] at hg
                  obtain ⟨hm, hy⟩ := hg
                  subst hm
                  subst hy
                  subst hdash
                  obtain ⟨c1, c2, hcs, h1, h2, hmval⟩ := getnum2_some_shape _ _ _ hg2
                  obtain ⟨c3, c4, c5, c6, hcs4, h3, h4, h5, h6, hyval⟩ :=
                    getnum4_some_shape _ _ _ hg4
                  refine ⟨rfl, rfl, rfl, rfl, hrange.1, hrange.2,
                    c1, c2, c3, c4, c5, c6, ?_, h1, h2, h3, h4, h5, h6, hmval, hyval⟩
                  rw [hcs, hcs4, hrest3]
                · cases hg
              · cases hg
          · cases hg
        · cases hg
  · intro c1 c2 c3 c4 c5 c6 hdata h1 h2 h3 h4 h5 h6 hlo hhi
    unfold HTTPService.parseMonth goParseMonthYear
    rw [hdata, getnum2_digits c1 c2 _ h1 h2]
    dsimp only
    rw [if_pos (rfl : ('-' : Char) = '-'), getnum4_digits c3 c4 c5 c6 [] h3 h4 h5 h6]
    dsimp only
    rw [if_pos (rfl : ([] : List Char) = []), if_pos ⟨hlo, hhi⟩]
  · intro hnone
    refine ⟨?_, ?_, ?_, ?_, ?_, ?_⟩
    · intro req gid now hs
      unfold HTTPService.create
      rw [hs, hnone]
    · intro req gid now he
      cases hps : HTTPService.parseMonth req.startDate with
      | none =>
        unfold HTTPService.create
        rw [hps]
        exact ⟨rfl, rfl⟩
      | some start =>
        unfold HTTPService.create
        rw [hps, he]
        dsimp only
        rw [hnone]
        exact ⟨rfl, rfl⟩
    · intro idv req now sub0 hget hs
      unfold HTTPService.update
      rw [hget]
      dsimp only
      rw [hs]
      dsimp only
      rw [hnone]
    · intro idv req now sub0 hget he hne
      unfold HTTPService.update
      rw [hget]
      dsimp only
      cases hsd : req.startDate with
      | none =>
        dsimp only
        rw [he]
        dsimp only
        rw [if_neg hne, hnone]
      | some s2 =>
        dsimp only
        cases hps : HTTPService.parseMonth s2 with
        | none => rfl
        | some d2 =>
          dsimp only
          rw [he]
          dsimp only
          rw [if_neg hne, hnone]
    · intro endV userP serviceP
      unfold HTTPService.calculateCost
      by_cases hreq : s = "" ∨ endV = ""
      · rw [if_pos hreq]
      · rw [if_neg hreq, hnone]
    · intro startV userP serviceP
      unfold HTTPService.calculateCost
      by_cases hreq : startV = "" ∨ s = ""
      · rw [if_pos hreq]
      · rw [if_neg hreq]
        cases hps : HTTPService.parseMonth startV with
        | none => rfl
        | some start =>
          dsimp only
          rw [hnone]


/-- Witness for C8: "01-2024" parses to a day-1 date, and a malformed
start_period makes the cost endpoint answer 400 with the store unchanged. -/
theorem parse_month_normalization_witness :
    jan2024.day = 1 ∧
    HTTPService.calculateCost [] "2024-01" "06-2024" HTTPService.UuidParam.absent
      none = (400, none, []) :=
  ⟨((parse_month_normalization "01-2024" []).1 jan2024 (by rfl)).1,
   ((parse_month_normalization "2024-01" []).2.2 (by rfl)).2.2.2.2.1 "06-2024"
     HTTPService.UuidParam.absent none⟩

/-- Counterexample for C8 as stated: the empty string is not of MM-YYYY form
and parseMonth rejects it, yet an update carrying end_date = "" on an
existing record is answered 200, not 400 — the handler treats it as the
clear-end-date marker instead of failing with InvalidInput. -/
theorem update_empty_end_date_not_rejected :
    HTTPService.parseMonth "" = none ∧
    (HTTPService.update [demoSub] 1
        { serviceName := none, price := none, startDate := none,
          endDate := some "" } 20).1 = 200 :=
  ⟨rfl, rfl⟩

end SubSvc
